import Mathlib
/-!
Shallow embedding of the nvsmi-gui repository.

`src/main.rs` is the compiled binary (it declares no modules, so
`src/process/mod.rs` and `src/device/mod.rs` are stale duplicates of its
types and are not part of the build); the embedding therefore follows
`src/main.rs`.  Machine integers (`u32`/`u64`/`i32`) occur only as compared
or divided values, never in overflowing arithmetic, so they are modelled as
`Nat`/`Int`.  The egui widget layer is outside the embedding: what is
embedded are the data-state transitions of `poll_device`, `MyApp::update`,
`ProcessTable` (header clicks and `sort_processes`) and the raw-input branch
of `DeviceStatsPlot::plot_ui`.
-/

namespace Nvsmi

/-- Modelled from the spec: the metric ring buffer is the external
`circular_buffer` crate's `CircularBuffer<N, T>`, which is not present under
`src/`.  Per the spec (§3, §4.1) it is a fixed-capacity overwrite-oldest
store: `push_back` appends at the logical head and silently discards the
oldest element once the capacity is reached, `len ≤ capacity` always holds,
and iteration yields the retained elements oldest-to-newest.  `data` lists
the retained elements oldest first, so iteration order is the list itself. -/
structure RingBuffer (α : Type) where
  cap : Nat
  data : List α
  deriving Repr, DecidableEq

namespace RingBuffer

def empty (α : Type) (cap : Nat) : RingBuffer α := ⟨cap, []⟩
/-- Push one value: append at the newest end, evicting the oldest element
when the buffer is already at capacity (a capacity-0 buffer stays empty). -/
def push_back (b : RingBuffer α) (v : α) : RingBuffer α :=
  if b.data.length < b.cap then ⟨b.cap, b.data ++ [v]⟩
  else if b.cap = 0 then b
  else ⟨b.cap, b.data.tail ++ [v]⟩
def pushAll (b : RingBuffer α) (xs : List α) : RingBuffer α :=
  xs.foldl push_back b

end RingBuffer

/-- Memory usage of a device-resident process as reported by NVML:
either a byte count or unavailable (`nvml_wrapper::enums::device::UsedGpuMemory`). -/
inductive GpuMemory : Type where
  | Used (val : Nat)
  | Unavailable
  deriving Repr, DecidableEq
/-- The two fields of `nvml_wrapper`'s `ProcessInfo` that `main.rs` uses. -/
structure ProcessInfo where
  pid : Nat
  used_gpu_memory : GpuMemory
  deriving Repr, DecidableEq
/-- `ProcessKind` from `src/main.rs`; the derived Rust `Ord` places
`Compute` before `Graphics` (declaration order). -/
inductive ProcessKind : Type where
  | Compute
  | Graphics
  deriving Repr, DecidableEq
/-- Ordinal of a `ProcessKind` under the derived Rust `Ord` instance. -/
def kindOrd : ProcessKind → Nat
  | .Compute => 0
  | .Graphics => 1
/-- `ProcessData` from `src/main.rs`. -/
structure ProcessData where
  process_info : ProcessInfo
  process_kind : ProcessKind
  process_name : String
  deriving Repr, DecidableEq
/-- `SortKind` from `src/main.rs` (`Type` is not a legal Lean constructor
name, so the `Type` variant is spelled `Type_`). -/
inductive SortKind : Type where
  | Pid
  | Type_
  | ProcessName
  | Memory
  deriving Repr, DecidableEq
/-- `ProcessTable` from `src/main.rs`.  The `selection` field is a
`HashSet<usize>` of row indices in the source; it is modelled as a list of
indices, which is adequate because the claims only concern it being left
untouched by sorting. -/
structure ProcessTable where
  striped : Bool
  resizable : Bool
  clickable : Bool
  sort_descending : Bool
  sort_kind : Option SortKind
  processes : List ProcessData
  show_plot_window : Bool
  selection : List Nat
  deriving Repr, DecidableEq
/-- The `Default` impl for `ProcessTable` in `src/main.rs`. -/
def ProcessTable.default : ProcessTable where
  striped := true
  resizable := true
  clickable := true
  sort_descending := true
  sort_kind := none
  processes := []
  show_plot_window := false
  selection := []
/-- Three-way comparison of two values of a linear order; models Rust's
`Ord::cmp` on the key values the comparator in `sort_processes` extracts. -/
def cmpOf {β : Type} [LinearOrder β] (x y : β) : Ordering :=
  if x < y then .lt else if x = y then .eq else .gt

/-- The numeric sort key the `SortKind::Memory` arm of `sort_processes`
extracts: a `Used` byte count is taken as-is and `Unavailable` is taken
as `0`. -/
def memVal (p : ProcessData) : Nat :=
  match p.process_info.used_gpu_memory with
  | .Used val => val
  | .Unavailable => 0
/-- The per-key comparator of `ProcessTable::sort_processes`
(`src/main.rs` lines 310-325): `Pid` compares pids, `Type` compares the
derived enum order (`Compute` before `Graphics`), `ProcessName` compares
names lexicographically, and `Memory` compares byte counts with
`Unavailable` taken as `0`. -/
def baseCmp (k : SortKind) (a b : ProcessData) : Ordering :=
  match k with
  | .Pid => cmpOf a.process_info.pid b.process_info.pid
  | .Type_ => cmpOf (kindOrd a.process_kind) (kindOrd b.process_kind)
  | .ProcessName => cmpOf a.process_name b.process_name
  | .Memory => cmpOf (memVal a) (memVal b)
/-- The full comparator of `sort_processes`: the per-key comparison,
reversed (`Ordering::reverse`, i.e. `Ordering.swap`) when
`sort_descending` is set (`src/main.rs` lines 326-330). -/
def procCmp (k : SortKind) (desc : Bool) (a b : ProcessData) : Ordering :=
  if desc then (baseCmp k a b).swap else baseCmp k a b
/-- Rust's stable `slice::sort_by` with comparator `cmp`, modelled as a
stable sort ordered by "`cmp` does not return `Greater`".  Insertion sort
is used because it is stable and kernel-computable; any two stable sorts
for the same comparator agree (`sorted_stable_unique` below), so this is
extensionally the behaviour `sort_by` documents. -/
def sortBy {α : Type} (cmp : α → α → Ordering) (l : List α) : List α :=
  List.insertionSort (fun a b => (cmp a b).isLE = true) l
/-- `ProcessTable::sort_processes` (`src/main.rs` lines 307-333): when a
sort key is active, stably re-sort `processes` in place by that key in the
current direction; otherwise do nothing. -/
def sort_processes (t : ProcessTable) : ProcessTable :=
  match t.sort_kind with
  | none => t
  | some sort_kind =>
      { t with processes := sortBy (procCmp sort_kind t.sort_descending) t.processes }
/-- The `response.clicked()` branch of `ProcessTable::create_sortable_header`
(`src/main.rs` lines 289-303): clicking the active key's header flips the
direction; clicking a different key (or clicking when no key is active)
activates that key with descending direction; then `sort_processes` runs. -/
def clickHeader (t : ProcessTable) (sort_kind : SortKind) : ProcessTable :=
  let t' :=
    match t.sort_kind with
    | some current_sort =>
        if current_sort = sort_kind then
          { t with sort_descending := !t.sort_descending }
        else
          { t with sort_kind := some sort_kind, sort_descending := true }
    | none => { t with sort_kind := some sort_kind, sort_descending := true }
  sort_processes t'

/-- A comparator is coherent when swapping its arguments swaps its verdict;
all comparators in `sort_processes` are of this shape. -/
def CmpSwap {α : Type} (cmp : α → α → Ordering) : Prop :=
  ∀ a b, cmp b a = (cmp a b).swap

/-- Transitivity of a comparator's "not greater" relation. -/
def CmpTrans {α : Type} (cmp : α → α → Ordering) : Prop :=
  ∀ a b c, (cmp a b).isLE = true → (cmp b c).isLE = true → (cmp a c).isLE = true

/-- `CudaDriverVersion` from `src/main.rs` (`i32` fields as `Int`). -/
structure CudaDriverVersion where
  major : Int
  minor : Int
  deriving Repr, DecidableEq
/-- The fields of `nvml_wrapper`'s `MemoryInfo` that `main.rs` uses
(bytes, `u64` as `Nat`). -/
structure MemoryInfo where
  total : Nat
  used : Nat
  free : Nat
  deriving Repr, DecidableEq
/-- `DeviceState` from `src/main.rs`. -/
structure DeviceState where
  name : String
  driver_version : String
  cuda_driver_version : CudaDriverVersion
  temperature : Nat
  mem_info : MemoryInfo
  fan_speeds : List Nat
  deriving Repr, DecidableEq
/-- `ProcessState` from `src/main.rs`. -/
structure ProcessState where
  processes : List ProcessData
  deriving Repr, DecidableEq
/-- `SystemState` from `src/main.rs`. -/
structure SystemState where
  device_state : DeviceState
  process_state : ProcessState
  deriving Repr, DecidableEq
/-- The NVML query interface exactly as `poll_device` consumes it: one
field per distinct query, each fallible query an `Option` (`none` models
that query failing, which the source meets with `.unwrap()`, i.e. a
panic; `sys_process_name` is the one read handled with `unwrap_or_else`).
`power_usage` belongs to the device interface (spec §6) but is never
queried by `poll_device`. -/
structure Oracle where
  device_by_index : Option Unit
  sys_cuda_driver_version : Option Int
  running_graphics_processes : Option (List ProcessInfo)
  sys_process_name : Nat → Option String
  running_compute_processes : Option (List ProcessInfo)
  num_fans : Option Nat
  fan_speed : Nat → Option Nat
  name : Option String
  sys_driver_version : Option String
  temperature : Option Nat
  memory_info : Option MemoryInfo
  power_usage : Option Nat
/-- The fan loop of `poll_device` (`for fan_idx in 0..num_fans { ...
fan_speed(fan_idx).unwrap() }`): read fans `i, i+1, ...` for `n` more
indices, aborting (panicking) at the first failing read. -/
def readFanSpeeds (o : Oracle) : Nat → Nat → Option (List Nat)
  | _, 0 => some []
  | i, n + 1 =>
      match o.fan_speed i with
      | none => none
      | some v =>
          match readFanSpeeds o (i + 1) n with
          | none => none
          | some vs => some (v :: vs)
/-- `nvml_wrapper::cuda_driver_version_major`. -/
def cuda_driver_version_major (v : Int) : Int := v / 1000
/-- `nvml_wrapper::cuda_driver_version_minor`. -/
def cuda_driver_version_minor (v : Int) : Int := v % 1000 / 10
/-- `poll_device` from `src/main.rs` lines 18-87, in source statement
order.  Every `.unwrap()` is modelled by the `Option` bind: a `none`
result models the panic that aborts the sample — the Rust function
returns a bare `SystemState`, so a failed query does not produce an error
value anywhere.  Name lookups use `unwrap_or_else(|_| "Unknown")`,
modelled by `Option.getD`. -/
def poll_device (o : Oracle) : Option SystemState := do
  let _device ← o.device_by_index
  let cuda_driver_version ← o.sys_cuda_driver_version
  let running_graphics_processes ← o.running_graphics_processes
  let graphics_process_names : List String :=
    running_graphics_processes.map
      (fun process => (o.sys_process_name process.pid).getD "Unknown")
  let graphics_process_data_vec : List ProcessData :=
    (running_graphics_processes.zip graphics_process_names).map
      (fun x => ⟨x.1, ProcessKind.Graphics, x.2⟩)
  let running_compute_processes ← o.running_compute_processes
  let compute_process_names : List String :=
    running_compute_processes.map
      (fun process => (o.sys_process_name process.pid).getD "Unknown")
  let compute_process_data_vec : List ProcessData :=
    (running_compute_processes.zip compute_process_names).map
      (fun x => ⟨x.1, ProcessKind.Compute, x.2⟩)
  let processes := graphics_process_data_vec ++ compute_process_data_vec
  let process_state : ProcessState := ⟨processes⟩
  let num_fans ← o.num_fans
  let fan_speeds ← readFanSpeeds o 0 num_fans
  let nm ← o.name
  let driver_version ← o.sys_driver_version
  let temperature ← o.temperature
  let mem_info ← o.memory_info
  pure ⟨⟨nm, driver_version,
         ⟨cuda_driver_version_major cuda_driver_version,
          cuda_driver_version_minor cuda_driver_version⟩,
         temperature, mem_info, fan_speeds⟩, process_state⟩
/-- The distinct NVML queries `poll_device` can issue. -/
inductive ReadEvent : Type where
  | device_by_index
  | cuda_driver_version
  | graphics_procs
  | proc_name (pid : Nat)
  | compute_procs
  | num_fans
  | fan_speed (i : Nat)
  | name
  | driver_version
  | temperature
  | memory_info
  | power_usage
  deriving Repr, DecidableEq
/-- Trace of the fan loop: the `fan_speed` reads issued, stopping after
the first failing one (which panics). -/
def fanReads (o : Oracle) : Nat → Nat → List ReadEvent
  | _, 0 => []
  | i, n + 1 =>
      ReadEvent.fan_speed i ::
        (match o.fan_speed i with
          | none => []
          | some _ => fanReads o (i + 1) n)
/-- The queries `poll_device` issues, in source order, up to and including
the first failing (panicking) one; mirrors the control flow of
`poll_device` statement by statement. -/
def pollDeviceReads (o : Oracle) : List ReadEvent :=
  ReadEvent.device_by_index ::
    match o.device_by_index with
    | none => []
    | some _ => ReadEvent.cuda_driver_version ::
      match o.sys_cuda_driver_version with
      | none => []
      | some _ => ReadEvent.graphics_procs ::
        match o.running_graphics_processes with
        | none => []
        | some gps => gps.map (fun p => ReadEvent.proc_name p.pid) ++
          ReadEvent.compute_procs ::
            match o.running_compute_processes with
            | none => []
            | some cps => cps.map (fun p => ReadEvent.proc_name p.pid) ++
              ReadEvent.num_fans ::
                match o.num_fans with
                | none => []
                | some nf => fanReads o 0 nf ++
                  match readFanSpeeds o 0 nf with
                  | none => []
                  | some _ => ReadEvent.name ::
                    match o.name with
                    | none => []
                    | some _ => ReadEvent.driver_version ::
                      match o.sys_driver_version with
                      | none => []
                      | some _ => ReadEvent.temperature ::
                        match o.temperature with
                        | none => []
                        | some _ => [ReadEvent.memory_info]
/-- The grouping the spec's claimed read order induces: scalar device
attributes (name, driver and runtime versions, temperature, memory info,
power) are class 0, process enumeration and name resolution class 1, fan
reads class 2; the device handle acquisition is grouped with the leading
class.  The claimed order "scalars, then processes, then fans" holds of a
trace exactly when its class sequence is nondecreasing. -/
def readClass : ReadEvent → Nat
  | .device_by_index => 0
  | .cuda_driver_version => 0
  | .graphics_procs => 1
  | .proc_name _ => 1
  | .compute_procs => 1
  | .num_fans => 2
  | .fan_speed _ => 2
  | .name => 0
  | .driver_version => 0
  | .temperature => 0
  | .memory_info => 0
  | .power_usage => 0
/-- All the queries `poll_device` unwraps succeed (its `sys_process_name`
reads are absent: they cannot abort the sample). -/
def devReadsOk (o : Oracle) : Bool :=
  o.device_by_index.isSome && o.sys_cuda_driver_version.isSome
    && o.running_graphics_processes.isSome && o.running_compute_processes.isSome
    && (match o.num_fans with
        | none => false
        | some nf => (readFanSpeeds o 0 nf).isSome)
    && o.name.isSome && o.sys_driver_version.isSome
    && o.temperature.isSome && o.memory_info.isSome

/-- `Tab` from `src/main.rs`. -/
inductive Tab : Type where
  | Devices
  | Processes
  deriving Repr, DecidableEq
/-- `DeviceStatsPlot` from `src/main.rs` lines 360-370; `f32` speeds are
modelled as `ℝ`, the two `CircularBuffer<10_000, _>` metric buffers as
ring buffers of capacity 10000. -/
structure DeviceStatsPlot where
  lock_x : Bool
  lock_y : Bool
  ctrl_to_zoom : Bool
  shift_to_horizontal : Bool
  zoom_speed : ℝ
  scroll_speed : ℝ
  temperature_vals : RingBuffer Nat
  memory_usage_vals : RingBuffer Nat
/-- The `Default` impl for `DeviceStatsPlot` in `src/main.rs`. -/
def DeviceStatsPlot.default : DeviceStatsPlot where
  lock_x := false
  lock_y := false
  ctrl_to_zoom := false
  shift_to_horizontal := false
  zoom_speed := 1
  scroll_speed := 1
  temperature_vals := RingBuffer.empty Nat 10000
  memory_usage_vals := RingBuffer.empty Nat 10000
/-- `DeviceView` from `src/main.rs`. -/
structure DeviceView where
  device_stats_plot : DeviceStatsPlot
/-- The state of `MyApp` from `src/main.rs`. -/
structure MyApp where
  current_state : Option SystemState
  device_view : DeviceView
  process_table : ProcessTable
  current_tab : Tab
/-- `MyApp::new`. -/
def MyApp.new : MyApp where
  current_state := none
  device_view := ⟨DeviceStatsPlot.default⟩
  process_table := ProcessTable.default
  current_tab := Tab.Devices
/-- The data transition of one `MyApp::update` frame (`src/main.rs` lines
471-478): `poll_device` is invoked unconditionally — the source has no
scheduler, no `next_tick` and no interval state (its comment "Check for
new values from the receiver" refers to a receiver that does not exist) —
then the snapshot is stored, the table rows are replaced, one temperature
sample and one memory sample are pushed, and the table is re-sorted.  The
egui widget tree built in the rest of `update` is rendering and is not
modelled.  A `none` result models the frame aborting through the panic of
an `.unwrap()` inside `poll_device`. -/
def update (o : Oracle) (app : MyApp) : Option MyApp :=
  match poll_device o with
  | none => none
  | some system_state =>
      some { app with
        current_state := some system_state
        process_table := sort_processes { app.process_table with
          processes := system_state.process_state.processes }
        device_view := ⟨{ app.device_view.device_stats_plot with
          temperature_vals :=
            app.device_view.device_stats_plot.temperature_vals.push_back
              system_state.device_state.temperature
          memory_usage_vals :=
            app.device_view.device_stats_plot.memory_usage_vals.push_back
              (system_state.device_state.mem_info.used / 1000000) }⟩ }
/-- `n` successive `update` frames against a fixed oracle. -/
def updateN (o : Oracle) : Nat → MyApp → Option MyApp
  | 0, app => some app
  | n + 1, app =>
      match update o app with
      | none => none
      | some app' => updateN o n app'
/-- A 2-vector over `ℝ`, modelling `egui::Vec2`. -/
structure Vec2 where
  x : ℝ
  y : ℝ
/-- The two bounds mutations the scroll branch of `plot_ui` can issue. -/
inductive PlotAction : Type where
  | zoom_bounds_around_hovered (factor : Vec2)
  | translate_bounds (delta : Vec2)
/-- The scroll branch of `DeviceStatsPlot::plot_ui` (`src/main.rs` lines
409-435).  With a scroll delta present: if `ctrl == ctrl_to_zoom`, the
delta is collapsed with `Vec2::splat(x + y)`, each axis gets the factor
`exp(component * zoom_speed / 10)`, locked axes are forced to exactly 1,
and a zoom around the hovered point is issued; otherwise the delta is
axis-swapped when `shift == shift_to_horizontal`, locked axes are zeroed,
it is scaled by `scroll_speed`, and a translation is issued. -/
noncomputable def plotScrollAction (p : DeviceStatsPlot) (scroll : Vec2)
    (ctrl shift : Bool) : PlotAction :=
  if ctrl = p.ctrl_to_zoom then
    let s : Vec2 := ⟨scroll.x + scroll.y, scroll.x + scroll.y⟩
    let zoom_factor : Vec2 :=
      ⟨Real.exp (s.x * p.zoom_speed / 10), Real.exp (s.y * p.zoom_speed / 10)⟩
    let zoom_factor := if p.lock_x then { zoom_factor with x := 1 } else zoom_factor
    let zoom_factor := if p.lock_y then { zoom_factor with y := 1 } else zoom_factor
    PlotAction.zoom_bounds_around_hovered zoom_factor
  else
    let scroll := if shift = p.shift_to_horizontal then Vec2.mk scroll.y scroll.x else scroll
    let scroll := if p.lock_x then { scroll with x := 0 } else scroll
    let scroll := if p.lock_y then { scroll with y := 0 } else scroll
    PlotAction.translate_bounds ⟨p.scroll_speed * scroll.x, p.scroll_speed * scroll.y⟩
/-- A concrete oracle whose queries all succeed: one graphics process
(pid 7, whose name lookup fails), one compute process (pid 8, named
"python"), one fan. -/
def oracleOk : Oracle where
  device_by_index := some ()
  sys_cuda_driver_version := some 12040
  running_graphics_processes := some [⟨7, GpuMemory.Used 150⟩]
  sys_process_name := fun pid => if pid = 8 then some "python" else none
  running_compute_processes := some [⟨8, GpuMemory.Unavailable⟩]
  num_fans := some 1
  fan_speed := fun _ => some 40
  name := some "GeForce"
  sys_driver_version := some "550.54"
  temperature := some 65
  memory_info := some ⟨8000000000, 2000000000, 6000000000⟩
  power_usage := some 30000
/-- `oracleOk` with the temperature query failing. -/
def oracleTempFail : Oracle := { oracleOk with temperature := none }
/-- `oracleOk` with the (never-issued) power query failing. -/
def oraclePowerFail : Oracle := { oracleOk with power_usage := none }

/-- Concrete controller state for the zoom example: ctrl-to-zoom enabled,
Y axis locked, zoom speed 1 (the remaining fields are the defaults). -/
def plotC6 : DeviceStatsPlot :=
  { DeviceStatsPlot.default with
      ctrl_to_zoom := true
      lock_y := true }

/-- The snapshot `poll_device` produces from `oracleOk` (pid 7's failing
name lookup degrades to "Unknown"; CUDA 12040 splits into major 12,
minor 4). -/
def sysOk : SystemState :=
  ⟨⟨"GeForce", "550.54", ⟨12, 4⟩, 65, ⟨8000000000, 2000000000, 6000000000⟩, [40]⟩,
   ⟨[⟨⟨7, GpuMemory.Used 150⟩, ProcessKind.Graphics, "Unknown"⟩,
     ⟨⟨8, GpuMemory.Unavailable⟩, ProcessKind.Compute, "python"⟩]⟩⟩

/-- Whether a sequence of class numbers is nondecreasing; the claimed read
order — all scalar attributes, then all process reads, then all fan reads —
holds of a trace exactly when this is true of its `readClass` image. -/
def classesNondecreasing : List Nat → Bool
  | [] => true
  | [_] => true
  | a :: b :: t => decide (a ≤ b) && classesNondecreasing (b :: t)

end Nvsmi

namespace Nvsmi

namespace RingBuffer

variable {α : Type}

theorem push_back_cap (b : RingBuffer α) (v : α) : (b.push_back v).cap = b.cap := by
  unfold push_back
  split <;> [rfl; skip]
  split <;> rfl
theorem push_back_length_le (b : RingBuffer α) (v : α) (h : b.data.length ≤ b.cap) :
    (b.push_back v).data.length ≤ b.cap := by
  unfold push_back
  split
  · simpa using ‹b.data.length < b.cap›
  · split
    · exact h
    · rename_i hlt hcap
      have hlen : b.data.length = b.cap := le_antisymm h (Nat.le_of_not_lt hlt)
      simp only [List.length_append, List.length_tail, List.length_cons,
        List.length_nil]
      omega
/-- The contents of a buffer after a sequence of pushes: the concatenation of
the old contents and the pushed values, with everything but the final `cap`
elements evicted. -/
theorem pushAll_data (xs : List α) (b : RingBuffer α) (h : b.data.length ≤ b.cap) :
    (b.pushAll xs).data = (b.data ++ xs).drop (b.data.length + xs.length - b.cap) := by
  induction xs generalizing b with
  | nil =>
      simp [pushAll, Nat.sub_eq_zero_of_le h]
  | cons x xs ih =>
      have step : b.pushAll (x :: xs) = (b.push_back x).pushAll xs := rfl
      have hinv : (b.push_back x).data.length ≤ (b.push_back x).cap := by
        rw [b.push_back_cap x]
        exact b.push_back_length_le x h
      rw [step, ih (b.push_back x) hinv]
      by_cases hlt : b.data.length < b.cap
      · have hdata : (b.push_back x).data = b.data ++ [x] := by
          unfold push_back
          rw [if_pos hlt]
        rw [hdata, b.push_back_cap x]
        have hassoc : (b.data ++ [x]) ++ xs = b.data ++ x :: xs := by
          simp
        rw [hassoc]
        congr 1
        simp only [List.length_append, List.length_cons, List.length_nil]
        omega
      · by_cases hcap : b.cap = 0
        · have hdata : b.push_back x = b := by
            unfold push_back
            rw [if_neg hlt, if_pos hcap]
          have hnil : b.data = [] := by
            have h0 := h
            rw [hcap] at h0
            exact List.length_eq_zero.mp (Nat.le_zero.mp h0)
          rw [hdata, hnil, hcap]
          simp [List.drop_succ_cons]
        · have hlen : b.data.length = b.cap := le_antisymm h (Nat.le_of_not_lt hlt)
          obtain ⟨a, t, hbd⟩ : ∃ a t, b.data = a :: t := by
            cases hbd : b.data with
            | nil => rw [hbd] at hlen; exact absurd hlen.symm hcap
            | cons a t => exact ⟨a, t, rfl⟩
          have hdata : (b.push_back x).data = t ++ [x] := by
            unfold push_back
            rw [if_neg hlt, if_neg hcap, hbd]
            rfl
          have h1 : t.length + 1 = b.cap := by
            simpa [hbd] using hlen
          rw [hdata, b.push_back_cap x, hbd]
          have e1 : (t ++ [x]).length + xs.length - b.cap = xs.length := by
            simp only [List.length_append, List.length_cons, List.length_nil]
            omega
          have e2 : (a :: t).length + (x :: xs).length - b.cap = xs.length + 1 := by
            simp only [List.length_cons]
            omega
          rw [e1, e2, List.cons_append, List.drop_succ_cons]
          simp [List.append_assoc]
theorem pushAll_length (xs : List α) (b : RingBuffer α) (h : b.data.length ≤ b.cap) :
    (b.pushAll xs).data.length = min (b.data.length + xs.length) b.cap := by
  rw [pushAll_data xs b h, List.length_drop]
  simp
  omega

end RingBuffer

theorem cmpOf_swap {β : Type} [LinearOrder β] (x y : β) :
    cmpOf y x = (cmpOf x y).swap := by
  unfold cmpOf
  rcases lt_trichotomy x y with h | h | h
  · rw [if_pos h, if_neg (not_lt_of_gt h), if_neg (ne_of_gt h)]
    rfl
  · subst h
    simp
    rfl
  · rw [if_pos h, if_neg (not_lt_of_gt h), if_neg (ne_of_gt h)]
    rfl
theorem cmpOf_isLE {β : Type} [LinearOrder β] (x y : β) :
    (cmpOf x y).isLE = true ↔ x ≤ y := by
  unfold cmpOf
  rcases lt_trichotomy x y with h | h | h
  · simp [h, le_of_lt h, Ordering.isLE]
  · subst h
    simp [Ordering.isLE]
  · rw [if_neg (not_lt_of_gt h), if_neg (ne_of_gt h)]
    simp [Ordering.isLE, not_le_of_gt h]
theorem cmpOf_eq_iff {β : Type} [LinearOrder β] (x y : β) :
    cmpOf x y = .eq ↔ x = y := by
  unfold cmpOf
  rcases lt_trichotomy x y with h | h | h
  · simp [h, ne_of_lt h]
  · subst h
    simp
  · rw [if_neg (not_lt_of_gt h), if_neg (ne_of_gt h)]
    simp [ne_of_gt h]

/-- C1: for every ring buffer of capacity `cap` and every sequence `xs` of
pushed values, after pushing all of `xs` into an initially empty buffer the
length is `min xs.length cap` and the retained contents (oldest first, i.e.
iteration order) are exactly the last `min xs.length cap` pushed values in
push order; in particular pushing `[40, 41, 42]` into a capacity-2 buffer
and iterating yields `[41, 42]`. -/
theorem ringBuffer_push_iterate_spec {α : Type} (cap : Nat) (xs : List α) :
    ((RingBuffer.empty α cap).pushAll xs).data.length = min xs.length cap
    ∧ ((RingBuffer.empty α cap).pushAll xs).data = xs.drop (xs.length - cap)
    ∧ ((RingBuffer.empty Nat 2).pushAll [40, 41, 42]).data = [41, 42] := by
  refine ⟨?_, ?_, by decide⟩
  · have := RingBuffer.pushAll_length xs (RingBuffer.empty α cap) (by simp [RingBuffer.empty])
    simpa [RingBuffer.empty] using this
  · have := RingBuffer.pushAll_data xs (RingBuffer.empty α cap) (by simp [RingBuffer.empty])
    simpa [RingBuffer.empty] using this

section CmpLemmas
variable {α : Type} (cmp : α → α → Ordering)

theorem cmp_total (hswap : CmpSwap cmp) (a b : α) :
    ((cmp a b).isLE || (cmp b a).isLE) = true := by
  rw [hswap a b]
  cases cmp a b <;> rfl
theorem cmp_refl (hswap : CmpSwap cmp) (a : α) : cmp a a = .eq := by
  have h := hswap a a
  cases hc : cmp a a <;> rw [hc] at h <;> first | rfl | exact absurd h (by decide)
theorem cmp_antisymm (hswap : CmpSwap cmp) {a b : α}
    (h1 : (cmp a b).isLE = true) (h2 : (cmp b a).isLE = true) : cmp a b = .eq := by
  rw [hswap a b] at h2
  cases hc : cmp a b <;> rw [hc] at h1 h2 <;>
    first | rfl | exact absurd h1 (by decide) | exact absurd h2 (by decide)
theorem sortBy_perm (l : List α) : List.Perm (sortBy cmp l) l :=
  List.perm_insertionSort _ l
theorem sortBy_sorted (hswap : CmpSwap cmp) (htrans : CmpTrans cmp) (l : List α) :
    (sortBy cmp l).Pairwise (fun a b => (cmp a b).isLE = true) := by
  haveI : IsTotal α (fun a b => (cmp a b).isLE = true) :=
    ⟨fun a b => by
      have h := cmp_total cmp hswap a b
      rcases Bool.or_eq_true_iff.mp h with h' | h'
      · exact Or.inl h'
      · exact Or.inr h'⟩
  haveI : IsTrans α (fun a b => (cmp a b).isLE = true) :=
    ⟨fun a b c hab hbc => htrans a b c hab hbc⟩
  exact List.sorted_insertionSort _ l
/-- Stability of `sortBy`, filter form: a predicate that only selects
mutually tied elements selects the same (ordered) sublist before and after
sorting. -/
theorem sortBy_filter_of_ties (hswap : CmpSwap cmp) (htrans : CmpTrans cmp)
    (p : α → Bool) (hp : ∀ x y, p x = true → p y = true → (cmp x y).isLE = true)
    (l : List α) : (sortBy cmp l).filter p = l.filter p := by
  have hpair : (l.filter p).Pairwise (fun a b => (cmp a b).isLE = true) := by
    apply List.pairwise_of_forall_mem_list
    intro x hx y hy
    exact hp x y (List.of_mem_filter hx) (List.of_mem_filter hy)
  have hsub : List.Sublist (l.filter p) (sortBy cmp l) :=
    List.sublist_insertionSort hpair (List.filter_sublist l)
  have hsubf : List.Sublist (l.filter p) ((sortBy cmp l).filter p) := by
    have h2 := hsub.filter p
    rwa [List.filter_filter, show (fun a => p a && p a) = p from funext fun a => Bool.and_self _]
      at h2
  have hlen : (l.filter p).length = ((sortBy cmp l).filter p).length :=
    (((sortBy_perm cmp l).filter p).length_eq).symm
  exact (hsubf.eq_of_length hlen).symm
/-- A list that is sorted for the comparator and agrees with another sorted
list on every tie-class filter (and is a permutation of it) is equal to it:
stable sorting has a unique result. -/
theorem sorted_stable_unique (hswap : CmpSwap cmp) :
    ∀ {l₁ l₂ : List α}, List.Perm l₁ l₂ →
      l₁.Pairwise (fun a b => (cmp a b).isLE = true) →
      l₂.Pairwise (fun a b => (cmp a b).isLE = true) →
      (∀ a, l₁.filter (fun b => decide (cmp a b = .eq))
          = l₂.filter (fun b => decide (cmp a b = .eq))) →
      l₁ = l₂ := by
  intro l₁
  induction l₁ with
  | nil =>
      intro l₂ hperm _ _ _
      exact (hperm.symm.eq_nil).symm
  | cons x r₁ ih =>
      intro l₂ hperm hs₁ hs₂ hf
      cases l₂ with
      | nil => exact absurd hperm.eq_nil (by simp)
      | cons y r₂ =>
          have hxy : cmp x y = .eq := by
            rcases List.mem_cons.mp (hperm.mem_iff.mp (List.mem_cons_self x r₁)) with hEq | hx2
            · rw [hEq]
              exact cmp_refl cmp hswap y
            · rcases List.mem_cons.mp (hperm.mem_iff.mpr (List.mem_cons_self y r₂)) with
                hEq | hy1
              · rw [hEq]
                exact cmp_refl cmp hswap x
              · exact cmp_antisymm cmp hswap
                  ((List.pairwise_cons.mp hs₁).1 y hy1)
                  ((List.pairwise_cons.mp hs₂).1 x hx2)
          have hfx := hf x
          rw [List.filter_cons, List.filter_cons] at hfx
          simp only [cmp_refl cmp hswap x, hxy, decide_eq_true_eq, if_pos rfl] at hfx
          have hfx' : x :: r₁.filter (fun b => decide (cmp x b = .eq))
              = y :: r₂.filter (fun b => decide (cmp x b = .eq)) := by
            simpa using hfx
          obtain ⟨hxy', htails⟩ := List.cons_eq_cons.mp hfx'
          subst hxy'
          have hperm' : List.Perm r₁ r₂ := hperm.cons_inv
          have hf' : ∀ a, r₁.filter (fun b => decide (cmp a b = .eq))
              = r₂.filter (fun b => decide (cmp a b = .eq)) := by
            intro a
            have hfa := hf a
            rw [List.filter_cons, List.filter_cons] at hfa
            by_cases hax : cmp a x = .eq
            · simp only [hax, decide_eq_true_eq, if_pos rfl] at hfa
              simpa using hfa
            · simp only [decide_eq_true_eq, if_neg hax] at hfa
              exact hfa
          exact congrArg (x :: ·)
            (ih hperm' (List.pairwise_cons.mp hs₁).2 (List.pairwise_cons.mp hs₂).2 hf')
/-- Re-sorting an already (differently-directed) stably sorted list with a
comparator that has the same tie classes gives the same result as sorting
the original list: the intermediate stable sort does not scramble ties. -/
theorem sortBy_sortBy (cmp₁ cmp₂ : α → α → Ordering)
    (hswap₁ : CmpSwap cmp₁) (htrans₁ : CmpTrans cmp₁)
    (hswap₂ : CmpSwap cmp₂) (htrans₂ : CmpTrans cmp₂)
    (heqv : ∀ a b, cmp₁ a b = .eq ↔ cmp₂ a b = .eq) (l : List α) :
    sortBy cmp₁ (sortBy cmp₂ l) = sortBy cmp₁ l := by
  apply sorted_stable_unique cmp₁ hswap₁
  · exact ((sortBy_perm cmp₁ _).trans (sortBy_perm cmp₂ l)).trans (sortBy_perm cmp₁ l).symm
  · exact sortBy_sorted cmp₁ hswap₁ htrans₁ _
  · exact sortBy_sorted cmp₁ hswap₁ htrans₁ _
  · intro a
    have hties₁ : ∀ x y, decide (cmp₁ a x = .eq) = true → decide (cmp₁ a y = .eq) = true →
        (cmp₁ x y).isLE = true := by
      intro x y hx hy
      have hx' : cmp₁ a x = .eq := of_decide_eq_true hx
      have hy' : cmp₁ a y = .eq := of_decide_eq_true hy
      have hxa : cmp₁ x a = .eq := by
        rw [hswap₁ a x, hx']
        rfl
      have h1 : (cmp₁ x a).isLE = true := by rw [hxa]; rfl
      have h2 : (cmp₁ a y).isLE = true := by rw [hy']; rfl
      exact htrans₁ x a y h1 h2
    have hties₂ : ∀ x y, decide (cmp₁ a x = .eq) = true → decide (cmp₁ a y = .eq) = true →
        (cmp₂ x y).isLE = true := by
      intro x y hx hy
      have hx' : cmp₂ a x = .eq := (heqv a x).mp (of_decide_eq_true hx)
      have hy' : cmp₂ a y = .eq := (heqv a y).mp (of_decide_eq_true hy)
      have hxa : cmp₂ x a = .eq := by
        rw [hswap₂ a x, hx']
        rfl
      have h1 : (cmp₂ x a).isLE = true := by rw [hxa]; rfl
      have h2 : (cmp₂ a y).isLE = true := by rw [hy']; rfl
      exact htrans₂ x a y h1 h2
    calc (sortBy cmp₁ (sortBy cmp₂ l)).filter (fun b => decide (cmp₁ a b = .eq))
        = (sortBy cmp₂ l).filter (fun b => decide (cmp₁ a b = .eq)) :=
          sortBy_filter_of_ties cmp₁ hswap₁ htrans₁ _ hties₁ _
      _ = l.filter (fun b => decide (cmp₁ a b = .eq)) :=
          sortBy_filter_of_ties cmp₂ hswap₂ htrans₂ _ hties₂ _
      _ = (sortBy cmp₁ l).filter (fun b => decide (cmp₁ a b = .eq)) :=
          (sortBy_filter_of_ties cmp₁ hswap₁ htrans₁ _ hties₁ _).symm

end CmpLemmas

theorem baseCmp_swap (k : SortKind) (a b : ProcessData) :
    baseCmp k b a = (baseCmp k a b).swap := by
  cases k <;> exact cmpOf_swap _ _
theorem baseCmp_trans (k : SortKind) (a b c : ProcessData)
    (h1 : (baseCmp k a b).isLE = true) (h2 : (baseCmp k b c).isLE = true) :
    (baseCmp k a c).isLE = true := by
  cases k <;> rw [baseCmp] at h1 h2 ⊢ <;>
    rw [cmpOf_isLE] at h1 h2 ⊢ <;> exact le_trans h1 h2
theorem procCmp_swap (k : SortKind) (desc : Bool) : CmpSwap (procCmp k desc) := by
  intro a b
  cases desc with
  | false => simpa [procCmp] using baseCmp_swap k a b
  | true =>
      show (baseCmp k b a).swap = ((baseCmp k a b).swap).swap
      rw [baseCmp_swap k a b]
theorem procCmp_trans (k : SortKind) (desc : Bool) : CmpTrans (procCmp k desc) := by
  intro a b c h1 h2
  cases desc with
  | false =>
      simp only [procCmp, Bool.false_eq_true, if_false] at h1 h2 ⊢
      exact baseCmp_trans k a b c h1 h2
  | true =>
      simp only [procCmp, if_pos rfl] at h1 h2 ⊢
      rw [← baseCmp_swap] at h1 h2 ⊢
      exact baseCmp_trans k c b a h2 h1
theorem procCmp_eq_iff (k : SortKind) (desc : Bool) (a b : ProcessData) :
    procCmp k desc a b = .eq ↔ baseCmp k a b = .eq := by
  cases desc with
  | false => simp [procCmp]
  | true =>
      simp only [procCmp, if_pos rfl]
      cases baseCmp k a b <;> simp <;> decide

theorem sort_processes_sort_kind (t : ProcessTable) :
    (sort_processes t).sort_kind = t.sort_kind := by
  cases hk : t.sort_kind <;> simp [sort_processes, hk]
theorem sort_processes_sort_descending (t : ProcessTable) :
    (sort_processes t).sort_descending = t.sort_descending := by
  cases hk : t.sort_kind <;> simp [sort_processes, hk]
theorem sort_processes_selection (t : ProcessTable) :
    (sort_processes t).selection = t.selection := by
  cases hk : t.sort_kind <;> simp [sort_processes, hk]
theorem sort_processes_show_plot_window (t : ProcessTable) :
    (sort_processes t).show_plot_window = t.show_plot_window := by
  cases hk : t.sort_kind <;> simp [sort_processes, hk]
theorem sort_processes_striped (t : ProcessTable) :
    (sort_processes t).striped = t.striped := by
  cases hk : t.sort_kind <;> simp [sort_processes, hk]
theorem sort_processes_resizable (t : ProcessTable) :
    (sort_processes t).resizable = t.resizable := by
  cases hk : t.sort_kind <;> simp [sort_processes, hk]
theorem sort_processes_clickable (t : ProcessTable) :
    (sort_processes t).clickable = t.clickable := by
  cases hk : t.sort_kind <;> simp [sort_processes, hk]
theorem sort_processes_processes_perm (t : ProcessTable) :
    List.Perm (sort_processes t).processes t.processes := by
  cases hk : t.sort_kind with
  | none => simp [sort_processes, hk]
  | some k =>
      simp only [sort_processes, hk]
      exact sortBy_perm _ _
theorem clickHeader_sort_kind (t : ProcessTable) (k : SortKind) :
    (clickHeader t k).sort_kind = some k := by
  cases hk : t.sort_kind with
  | none => simp [clickHeader, hk, sort_processes_sort_kind]
  | some c =>
      by_cases hc : c = k <;>
        simp [clickHeader, hk, hc, sort_processes_sort_kind]
theorem clickHeader_sort_descending (t : ProcessTable) (k : SortKind) :
    (clickHeader t k).sort_descending =
      (match t.sort_kind with
        | some current => if current = k then !t.sort_descending else true
        | none => true) := by
  cases hk : t.sort_kind with
  | none => simp [clickHeader, hk, sort_processes_sort_descending]
  | some c =>
      by_cases hc : c = k <;>
        simp [clickHeader, hk, hc, sort_processes_sort_descending]
theorem clickHeader_processes (t : ProcessTable) (k : SortKind) :
    (clickHeader t k).processes
      = sortBy (procCmp k ((clickHeader t k).sort_descending)) t.processes := by
  cases hk : t.sort_kind with
  | none => simp [clickHeader, hk, sort_processes]
  | some c =>
      by_cases hc : c = k <;> simp [clickHeader, hk, hc, sort_processes]
theorem sortBy_procCmp_procCmp (k : SortKind) (d e : Bool) (l : List ProcessData) :
    sortBy (procCmp k d) (sortBy (procCmp k e) l) = sortBy (procCmp k d) l :=
  sortBy_sortBy _ _ (procCmp_swap k d) (procCmp_trans k d) (procCmp_swap k e)
    (procCmp_trans k e)
    (fun a b => (procCmp_eq_iff k d a b).trans (procCmp_eq_iff k e a b).symm) l
theorem procCmp_memory_isLE (desc : Bool) (a b : ProcessData) :
    (procCmp SortKind.Memory desc a b).isLE = true
      ↔ (if desc = true then memVal b ≤ memVal a else memVal a ≤ memVal b) := by
  cases desc with
  | false =>
      show (baseCmp SortKind.Memory a b).isLE = true ↔ _
      simp only [Bool.false_eq_true, if_false]
      exact cmpOf_isLE _ _
  | true =>
      show ((baseCmp SortKind.Memory a b).swap).isLE = true ↔ _
      rw [← baseCmp_swap]
      simp only [if_pos rfl]
      exact cmpOf_isLE _ _

/-- C10: for every table state, `sort_processes` leaves every field other
than the row list unchanged — in particular the selection's row indices are
not remapped — and only permutes the row list (the multiset of rows is
preserved); when no sort key is active it leaves the row list unchanged as
well. -/
theorem sort_processes_frame_spec (t : ProcessTable) :
    (sort_processes t).selection = t.selection
    ∧ (sort_processes t).sort_kind = t.sort_kind
    ∧ (sort_processes t).sort_descending = t.sort_descending
    ∧ (sort_processes t).show_plot_window = t.show_plot_window
    ∧ (sort_processes t).striped = t.striped
    ∧ (sort_processes t).resizable = t.resizable
    ∧ (sort_processes t).clickable = t.clickable
    ∧ List.Perm (sort_processes t).processes t.processes
    ∧ sort_processes { t with sort_kind := none } = { t with sort_kind := none } :=
  ⟨sort_processes_selection t, sort_processes_sort_kind t,
   sort_processes_sort_descending t, sort_processes_show_plot_window t,
   sort_processes_striped t, sort_processes_resizable t,
   sort_processes_clickable t, sort_processes_processes_perm t,
   by simp [sort_processes]⟩
/-- C4: for every sort state and every header click on key `k`: if `k` is
the currently active key the direction flips and the key is unchanged;
otherwise (different key or no key active) the active key becomes `k` and
the direction is set to descending; afterwards exactly the single key `k`
is active. -/
theorem create_sortable_header_click_spec (t : ProcessTable) (k : SortKind) :
    (clickHeader t k).sort_kind = some k
    ∧ (clickHeader t k).sort_descending =
        (match t.sort_kind with
          | some current => if current = k then !t.sort_descending else true
          | none => true) :=
  ⟨clickHeader_sort_kind t k, clickHeader_sort_descending t k⟩

/-- C2: sorting by the Memory key orders records by the numeric key that
takes `Unavailable` as `0`, the sort is stable (records with equal keys
keep their prior relative order: every key-value filter is preserved), the
multiset of records is preserved, and in particular sorting the records
`{pid 10, Graphics, Used 200000000}` and `{pid 5, Compute, Unavailable}`
by Memory descending places pid 10 first. -/
theorem sort_by_memory_spec (l : List ProcessData) (desc : Bool) :
    (sort_processes { ProcessTable.default with
        sort_kind := some SortKind.Memory
        sort_descending := desc
        processes := l }).processes
      = sortBy (procCmp SortKind.Memory desc) l
    ∧ List.Perm (sortBy (procCmp SortKind.Memory desc) l) l
    ∧ (sortBy (procCmp SortKind.Memory desc) l).Pairwise
        (fun a b => if desc = true then memVal b ≤ memVal a else memVal a ≤ memVal b)
    ∧ (∀ v : Nat,
        (sortBy (procCmp SortKind.Memory desc) l).filter (fun p => decide (memVal p = v))
          = l.filter (fun p => decide (memVal p = v)))
    ∧ (sort_processes { ProcessTable.default with
        sort_kind := some SortKind.Memory
        sort_descending := true
        processes := [⟨⟨10, GpuMemory.Used 200000000⟩, ProcessKind.Graphics, "glxgears"⟩,
                      ⟨⟨5, GpuMemory.Unavailable⟩, ProcessKind.Compute, "python"⟩] }).processes.map
        (fun p => p.process_info.pid) = [10, 5] := by
  refine ⟨by simp [sort_processes], sortBy_perm _ l, ?_, ?_, by decide⟩
  · have h := sortBy_sorted (procCmp SortKind.Memory desc)
      (procCmp_swap SortKind.Memory desc) (procCmp_trans SortKind.Memory desc) l
    exact h.imp (fun hab => (procCmp_memory_isLE desc _ _).mp hab)
  · intro v
    apply sortBy_filter_of_ties _ (procCmp_swap SortKind.Memory desc)
      (procCmp_trans SortKind.Memory desc)
    intro x y hx hy
    have hx' : memVal x = v := of_decide_eq_true hx
    have hy' : memVal y = v := of_decide_eq_true hy
    rw [procCmp_memory_isLE]
    cases desc <;> simp [hx', hy']
/-- C5 (as amended): clicking key `k`'s header twice in succession leaves
`k` active and yields the row order of one stable sort of the prior rows in
the final direction — ascending when `k` was newly activated (so the second
click does not in general restore the pre-click order), and the original
direction (with the corresponding single-sort order) when `k` was already
active; clicking a key that is not active always starts it in descending
order regardless of the previous direction. -/
theorem clickHeader_twice_spec (t : ProcessTable) (k : SortKind) :
    (t.sort_kind = some k →
      (clickHeader (clickHeader t k) k).sort_descending = t.sort_descending
      ∧ (clickHeader (clickHeader t k) k).processes
          = sortBy (procCmp k t.sort_descending) t.processes)
    ∧ (t.sort_kind ≠ some k →
      (clickHeader (clickHeader t k) k).sort_descending = false
      ∧ (clickHeader (clickHeader t k) k).processes
          = sortBy (procCmp k false) t.processes)
    ∧ (∀ kp : SortKind, t.sort_kind ≠ some kp →
      (clickHeader t kp).sort_kind = some kp
      ∧ (clickHeader t kp).sort_descending = true) := by
  have hk1 : (clickHeader t k).sort_kind = some k := clickHeader_sort_kind t k
  refine ⟨?_, ?_, ?_⟩
  · intro h
    have hd1 : (clickHeader t k).sort_descending = !t.sort_descending := by
      rw [clickHeader_sort_descending, h]
      simp
    have hd2 : (clickHeader (clickHeader t k) k).sort_descending = t.sort_descending := by
      rw [clickHeader_sort_descending, hk1]
      simp [hd1]
    refine ⟨hd2, ?_⟩
    rw [clickHeader_processes (clickHeader t k) k, hd2, clickHeader_processes t k, hd1,
      sortBy_procCmp_procCmp]
  · intro h
    have hd1 : (clickHeader t k).sort_descending = true := by
      rw [clickHeader_sort_descending]
      cases hk : t.sort_kind with
      | none => rfl
      | some c =>
          have hc : c ≠ k := fun hck => h (by rw [hk, hck])
          simp [hc]
    have hd2 : (clickHeader (clickHeader t k) k).sort_descending = false := by
      rw [clickHeader_sort_descending, hk1]
      simp [hd1]
    refine ⟨hd2, ?_⟩
    rw [clickHeader_processes (clickHeader t k) k, hd2, clickHeader_processes t k, hd1,
      sortBy_procCmp_procCmp]
  · intro kp hkp
    refine ⟨clickHeader_sort_kind t kp, ?_⟩
    rw [clickHeader_sort_descending]
    cases hk : t.sort_kind with
    | none => rfl
    | some c =>
        have hc : c ≠ kp := fun hck => hkp (by rw [hk, hck])
        simp [hc]
/-- C5, refutation of the claim as stated: clicking a key's header twice
does not in general return the row order to its original state — for the
rows with pids `[2, 1]` and no active key, clicking the PID header twice
leaves the rows ascending `[1, 2]`, not the original `[2, 1]`. -/
theorem clickHeader_twice_counterexample :
    (clickHeader (clickHeader { ProcessTable.default with processes :=
        [⟨⟨2, GpuMemory.Used 100⟩, ProcessKind.Compute, "a"⟩,
         ⟨⟨1, GpuMemory.Used 50⟩, ProcessKind.Compute, "b"⟩] } SortKind.Pid) SortKind.Pid).processes
      ≠ [⟨⟨2, GpuMemory.Used 100⟩, ProcessKind.Compute, "a"⟩,
         ⟨⟨1, GpuMemory.Used 50⟩, ProcessKind.Compute, "b"⟩] := by
  decide
/-- Witness for `clickHeader_twice_spec` at a concrete input. -/
theorem clickHeader_twice_witness :
    ({ ProcessTable.default with processes :=
        [⟨⟨2, GpuMemory.Used 100⟩, ProcessKind.Compute, "a"⟩,
         ⟨⟨1, GpuMemory.Used 50⟩, ProcessKind.Compute, "b"⟩] } : ProcessTable).sort_kind
        ≠ some SortKind.Pid
    ∧ ((clickHeader (clickHeader { ProcessTable.default with processes :=
        [⟨⟨2, GpuMemory.Used 100⟩, ProcessKind.Compute, "a"⟩,
         ⟨⟨1, GpuMemory.Used 50⟩, ProcessKind.Compute, "b"⟩] } SortKind.Pid)
          SortKind.Pid).sort_descending = false
      ∧ (clickHeader (clickHeader { ProcessTable.default with processes :=
        [⟨⟨2, GpuMemory.Used 100⟩, ProcessKind.Compute, "a"⟩,
         ⟨⟨1, GpuMemory.Used 50⟩, ProcessKind.Compute, "b"⟩] } SortKind.Pid)
          SortKind.Pid).processes
        = sortBy (procCmp SortKind.Pid false)
            [⟨⟨2, GpuMemory.Used 100⟩, ProcessKind.Compute, "a"⟩,
             ⟨⟨1, GpuMemory.Used 50⟩, ProcessKind.Compute, "b"⟩]) :=
  ⟨by decide,
   (clickHeader_twice_spec { ProcessTable.default with processes :=
        [⟨⟨2, GpuMemory.Used 100⟩, ProcessKind.Compute, "a"⟩,
         ⟨⟨1, GpuMemory.Used 50⟩, ProcessKind.Compute, "b"⟩] } SortKind.Pid).2.1
     (by decide)⟩

theorem poll_device_eq_some (o : Oracle) {u : Unit} {cuda : Int}
    {gps cps : List ProcessInfo} {nf : Nat} {fs : List Nat}
    {nm dv : String} {temp : Nat} {mi : MemoryInfo}
    (h1 : o.device_by_index = some u)
    (h2 : o.sys_cuda_driver_version = some cuda)
    (h3 : o.running_graphics_processes = some gps)
    (h4 : o.running_compute_processes = some cps)
    (h5 : o.num_fans = some nf)
    (h6 : readFanSpeeds o 0 nf = some fs)
    (h7 : o.name = some nm)
    (h8 : o.sys_driver_version = some dv)
    (h9 : o.temperature = some temp)
    (h10 : o.memory_info = some mi) :
    poll_device o = some
      ⟨⟨nm, dv,
        ⟨cuda_driver_version_major cuda, cuda_driver_version_minor cuda⟩,
        temp, mi, fs⟩,
       ⟨(gps.zip (gps.map
            (fun process => (o.sys_process_name process.pid).getD "Unknown"))).map
          (fun x => ⟨x.1, ProcessKind.Graphics, x.2⟩)
        ++ (cps.zip (cps.map
            (fun process => (o.sys_process_name process.pid).getD "Unknown"))).map
          (fun x => ⟨x.1, ProcessKind.Compute, x.2⟩)⟩⟩ := by
  unfold poll_device
  simp only [h1, h2, h3, h4, h5, h6, h7, h8, h9, h10, Option.bind_eq_bind,
    Option.some_bind]
  rfl
theorem poll_device_isSome_eq (o : Oracle) : (poll_device o).isSome = devReadsOk o := by
  unfold poll_device devReadsOk
  cases h1 : o.device_by_index <;> simp [h1]
  cases h2 : o.sys_cuda_driver_version <;> simp [h2]
  cases h3 : o.running_graphics_processes <;> simp [h3]
  cases h4 : o.running_compute_processes <;> simp [h4]
  cases h5 : o.num_fans <;> simp [h5]
  rename_i nf
  cases h6 : readFanSpeeds o 0 nf <;> simp [h6]
  cases h7 : o.name <;> simp [h7]
  cases h8 : o.sys_driver_version <;> simp [h8]
  cases h9 : o.temperature <;> simp [h9]
  cases h10 : o.memory_info <;> simp [h10]

/-- C3 (as amended): if any device-attribute read that `poll_device`
actually performs (CUDA runtime version, name, driver version,
temperature, memory info) fails, no partial snapshot is ever published —
the whole sample is discarded — but the failure propagates as an
`.unwrap()` panic that aborts the entire presentation-layer frame
(`update` produces no new state at all); no error value is returned to
any scheduler, since `poll_device` returns a bare `SystemState` and the
repository contains no scheduler.  The power attribute is never read, so
its failure cannot discard a sample. -/
theorem poll_device_atomic (o : Oracle) (app : MyApp)
    (h : o.name = none ∨ o.sys_driver_version = none
        ∨ o.sys_cuda_driver_version = none ∨ o.temperature = none
        ∨ o.memory_info = none) :
    poll_device o = none ∧ update o app = none := by
  have hfalse : devReadsOk o = false := by
    unfold devReadsOk
    rcases h with h | h | h | h | h <;> simp [h]
  have hnone : poll_device o = none := by
    have hs := poll_device_isSome_eq o
    rw [hfalse] at hs
    cases hp : poll_device o with
    | none => rfl
    | some s => rw [hp] at hs; simp at hs
  exact ⟨hnone, by simp [update, hnone]⟩
/-- C3, refutation of the claim as stated: with a failing temperature read
the error is not returned as a value to any scheduler — the whole
presentation-layer frame aborts (the modelled panic) — and a failing
power read does not discard the sample at all, because `poll_device`
never queries power. -/
theorem poll_device_atomic_counterexample :
    update oracleTempFail MyApp.new = none
    ∧ (update oraclePowerFail MyApp.new).isSome = true := by
  exact ⟨rfl, rfl⟩
/-- Witness for `poll_device_atomic` at a concrete input. -/
theorem poll_device_atomic_witness :
    (oracleTempFail.name = none ∨ oracleTempFail.sys_driver_version = none
      ∨ oracleTempFail.sys_cuda_driver_version = none
      ∨ oracleTempFail.temperature = none ∨ oracleTempFail.memory_info = none)
    ∧ (poll_device oracleTempFail = none
       ∧ update oracleTempFail MyApp.new = none) :=
  ⟨Or.inr (Or.inr (Or.inr (Or.inl rfl))),
   poll_device_atomic oracleTempFail MyApp.new
     (Or.inr (Or.inr (Or.inr (Or.inl rfl))))⟩

/-- C6: for every frame whose scroll delta is present and whose
ctrl-pressed state equals the ctrl-to-zoom flag, the controller collapses
the delta to the scalar `s = dx + dy`, issues a zoom whose per-axis factor
is `exp(s * zoom_speed / 10)`, forces each locked axis's factor to exactly
1, and each resulting factor is nonzero (for an unlocked axis it is a real
exponential, for a locked one it is 1). -/
theorem plot_zoom_spec (p : DeviceStatsPlot) (scroll : Vec2) (ctrl shift : Bool)
    (hc : ctrl = p.ctrl_to_zoom) :
    ∃ zf : Vec2,
      plotScrollAction p scroll ctrl shift = PlotAction.zoom_bounds_around_hovered zf
      ∧ (p.lock_x = false →
          zf.x = Real.exp ((scroll.x + scroll.y) * p.zoom_speed / 10))
      ∧ (p.lock_y = false →
          zf.y = Real.exp ((scroll.x + scroll.y) * p.zoom_speed / 10))
      ∧ (p.lock_x = true → zf.x = 1)
      ∧ (p.lock_y = true → zf.y = 1)
      ∧ zf.x ≠ 0 ∧ zf.y ≠ 0 := by
  unfold plotScrollAction
  rw [if_pos hc]
  cases hx : p.lock_x <;> cases hy : p.lock_y
  · exact ⟨_, rfl, fun _ => rfl, fun _ => rfl,
      fun h => absurd h (by simp), fun h => absurd h (by simp),
      Real.exp_ne_zero _, Real.exp_ne_zero _⟩
  · exact ⟨_, rfl, fun _ => rfl, fun h => absurd h (by simp),
      fun h => absurd h (by simp), fun _ => rfl,
      Real.exp_ne_zero _, one_ne_zero⟩
  · exact ⟨_, rfl, fun h => absurd h (by simp), fun _ => rfl,
      fun _ => rfl, fun h => absurd h (by simp),
      one_ne_zero, Real.exp_ne_zero _⟩
  · exact ⟨_, rfl, fun h => absurd h (by simp), fun h => absurd h (by simp),
      fun _ => rfl, fun _ => rfl, one_ne_zero, one_ne_zero⟩
/-- Witness for `plot_zoom_spec`: ctrl-to-zoom set, ctrl pressed, scroll
delta `(0, 2)`, zoom speed 1, Y axis locked: the Y factor is exactly 1 and
the X factor is a nonzero exponential. -/
theorem plot_zoom_witness :
    ∃ zf : Vec2,
      plotScrollAction plotC6 ⟨0, 2⟩ true false
        = PlotAction.zoom_bounds_around_hovered zf
      ∧ (plotC6.lock_x = false →
          zf.x = Real.exp (((0 : ℝ) + 2) * plotC6.zoom_speed / 10))
      ∧ (plotC6.lock_y = false →
          zf.y = Real.exp (((0 : ℝ) + 2) * plotC6.zoom_speed / 10))
      ∧ (plotC6.lock_x = true → zf.x = 1)
      ∧ (plotC6.lock_y = true → zf.y = 1)
      ∧ zf.x ≠ 0 ∧ zf.y ≠ 0 :=
  plot_zoom_spec plotC6 ⟨0, 2⟩ true false rfl

theorem updateN_run (o : Oracle) (s : SystemState) (hs : poll_device o = some s) :
    ∀ (n : Nat) (app : MyApp), ∃ app' : MyApp,
      updateN o n app = some app'
      ∧ app'.device_view.device_stats_plot.temperature_vals
          = app.device_view.device_stats_plot.temperature_vals.pushAll
              (List.replicate n s.device_state.temperature)
      ∧ app'.device_view.device_stats_plot.memory_usage_vals
          = app.device_view.device_stats_plot.memory_usage_vals.pushAll
              (List.replicate n (s.device_state.mem_info.used / 1000000)) := by
  intro n
  induction n with
  | zero => exact fun app => ⟨app, rfl, rfl, rfl⟩
  | succ n ih =>
      intro app
      have hstep : update o app = some { app with
          current_state := some s
          process_table := sort_processes { app.process_table with
            processes := s.process_state.processes }
          device_view := ⟨{ app.device_view.device_stats_plot with
            temperature_vals :=
              app.device_view.device_stats_plot.temperature_vals.push_back
                s.device_state.temperature
            memory_usage_vals :=
              app.device_view.device_stats_plot.memory_usage_vals.push_back
                (s.device_state.mem_info.used / 1000000) }⟩ } := by
        unfold update
        rw [hs]
      obtain ⟨app', h1, h2, h3⟩ := ih { app with
          current_state := some s
          process_table := sort_processes { app.process_table with
            processes := s.process_state.processes }
          device_view := ⟨{ app.device_view.device_stats_plot with
            temperature_vals :=
              app.device_view.device_stats_plot.temperature_vals.push_back
                s.device_state.temperature
            memory_usage_vals :=
              app.device_view.device_stats_plot.memory_usage_vals.push_back
                (s.device_state.mem_info.used / 1000000) }⟩ }
      refine ⟨app', ?_, ?_, ?_⟩
      · show (match update o app with
          | none => none
          | some app2 => updateN o n app2) = some app'
        rw [hstep]
        exact h1
      · rw [h2, List.replicate_succ]
        rfl
      · rw [h3, List.replicate_succ]
        rfl
/-- C7 (the code at the claimed site, evaluated): `MyApp::update` contains
no `next_tick += interval` bookkeeping and no interval state at all — it
invokes `poll_device` and appends exactly one sample to each metric buffer
on every frame, so after `n` rendered frames from a fresh app each buffer
holds `min n 10000` samples: sampling cadence equals the render cadence
instead of a fixed 100 ms grid measured from an origin. -/
theorem update_samples_every_frame (o : Oracle) (s : SystemState)
    (hs : poll_device o = some s) (n : Nat) :
    ∃ app' : MyApp, updateN o n MyApp.new = some app'
      ∧ app'.device_view.device_stats_plot.temperature_vals.data.length = min n 10000
      ∧ app'.device_view.device_stats_plot.memory_usage_vals.data.length = min n 10000 := by
  obtain ⟨app', h1, h2, h3⟩ := updateN_run o s hs n MyApp.new
  have hempty : MyApp.new.device_view.device_stats_plot.temperature_vals
      = RingBuffer.empty Nat 10000 := rfl
  have hempty2 : MyApp.new.device_view.device_stats_plot.memory_usage_vals
      = RingBuffer.empty Nat 10000 := rfl
  refine ⟨app', h1, ?_, ?_⟩
  · rw [h2, hempty,
      RingBuffer.pushAll_length _ (RingBuffer.empty Nat 10000) (by simp [RingBuffer.empty])]
    simp [RingBuffer.empty]
  · rw [h3, hempty2,
      RingBuffer.pushAll_length _ (RingBuffer.empty Nat 10000) (by simp [RingBuffer.empty])]
    simp [RingBuffer.empty]
/-- Witness for `update_samples_every_frame`: three rendered frames against
`oracleOk` append three samples to each buffer. -/
theorem update_samples_every_frame_witness :
    poll_device oracleOk = some sysOk
    ∧ ∃ app' : MyApp, updateN oracleOk 3 MyApp.new = some app'
      ∧ app'.device_view.device_stats_plot.temperature_vals.data.length = min 3 10000
      ∧ app'.device_view.device_stats_plot.memory_usage_vals.data.length = min 3 10000 :=
  ⟨rfl, update_samples_every_frame oracleOk sysOk rfl 3⟩

theorem zip_map_self {α β γ : Type} (l : List α) (f : α → β) (g : α × β → γ) :
    (l.zip (l.map f)).map g = l.map (fun x => g (x, f x)) := by
  induction l with
  | nil => rfl
  | cons a l ih => simp [ih]
theorem readFanSpeeds_congr (o : Oracle) (f : Nat → Option String) :
    ∀ (n i : Nat),
      readFanSpeeds { o with sys_process_name := f } i n = readFanSpeeds o i n := by
  intro n
  induction n with
  | zero => intro i; rfl
  | succ n ih =>
      intro i
      show (match o.fan_speed i with
        | none => none
        | some v =>
            match readFanSpeeds { o with sys_process_name := f } (i + 1) n with
            | none => none
            | some vs => some (v :: vs)) = _
      rw [ih (i + 1)]
      rfl
/-- C8: a failure of the per-PID name lookup never aborts the sample.  If
a sample succeeded, then it also succeeds with the name oracle replaced by
any other (and with identical device fields), and every record's display
name is the lookup result with the fixed placeholder "Unknown" substituted
exactly when the lookup for that record's pid failed. -/
theorem name_resolution_spec (o : Oracle) (f : Nat → Option String) (s : SystemState)
    (hs : poll_device o = some s) :
    (poll_device { o with sys_process_name := f }).isSome = true
    ∧ (poll_device { o with sys_process_name := f }).map SystemState.device_state
        = some s.device_state
    ∧ (∀ p ∈ s.process_state.processes,
        p.process_name = (o.sys_process_name p.process_info.pid).getD "Unknown"
        ∧ (o.sys_process_name p.process_info.pid = none → p.process_name = "Unknown")) := by
  have hOK : devReadsOk o = true := by
    rw [← poll_device_isSome_eq, hs]
    rfl
  simp only [devReadsOk, Bool.and_eq_true] at hOK
  obtain ⟨⟨⟨⟨⟨⟨⟨⟨h1, h2⟩, h3⟩, h4⟩, h5⟩, h6⟩, h7⟩, h8⟩, h9⟩ := hOK
  obtain ⟨u, hu⟩ := Option.isSome_iff_exists.mp h1
  obtain ⟨cuda, hcuda⟩ := Option.isSome_iff_exists.mp h2
  obtain ⟨gps, hgps⟩ := Option.isSome_iff_exists.mp h3
  obtain ⟨cps, hcps⟩ := Option.isSome_iff_exists.mp h4
  have hnf : ∃ nf fans, o.num_fans = some nf ∧ readFanSpeeds o 0 nf = some fans := by
    cases hn : o.num_fans with
    | none => rw [hn] at h5; exact absurd h5 (by simp)
    | some nf =>
        rw [hn] at h5
        obtain ⟨fans, hf⟩ := Option.isSome_iff_exists.mp h5
        exact ⟨nf, fans, rfl, hf⟩
  obtain ⟨nf, fans, hn, hf⟩ := hnf
  obtain ⟨nm, hnm⟩ := Option.isSome_iff_exists.mp h6
  obtain ⟨dv, hdv⟩ := Option.isSome_iff_exists.mp h7
  obtain ⟨temp, htemp⟩ := Option.isSome_iff_exists.mp h8
  obtain ⟨mi, hmi⟩ := Option.isSome_iff_exists.mp h9
  have heq := poll_device_eq_some o hu hcuda hgps hcps hn hf hnm hdv htemp hmi
  have hf' : readFanSpeeds { o with sys_process_name := f } 0 nf = some fans := by
    rw [readFanSpeeds_congr o f nf 0]
    exact hf
  have heq' := poll_device_eq_some { o with sys_process_name := f }
    hu hcuda hgps hcps hn hf' hnm hdv htemp hmi
  rw [hs] at heq
  have hsval := Option.some_inj.mp heq
  refine ⟨by rw [heq']; rfl, by rw [heq', hsval]; rfl, ?_⟩
  intro p hp
  rw [hsval] at hp
  simp only [zip_map_self] at hp
  have hname : p.process_name
      = (o.sys_process_name p.process_info.pid).getD "Unknown" := by
    rcases List.mem_append.mp hp with hmem | hmem
    · obtain ⟨q, _, hq⟩ := List.mem_map.mp hmem
      rw [← hq]
    · obtain ⟨q, _, hq⟩ := List.mem_map.mp hmem
      rw [← hq]
  exact ⟨hname, fun hn0 => by rw [hname, hn0]; rfl⟩
/-- Witness for `name_resolution_spec` at `oracleOk` (pid 7's name lookup
fails and degrades to "Unknown"; replacing the name oracle with one that
always fails still yields a sample with the same device fields). -/
theorem name_resolution_witness :
    poll_device oracleOk = some sysOk
    ∧ ((poll_device { oracleOk with sys_process_name := fun _ => none }).isSome = true
       ∧ (poll_device { oracleOk with sys_process_name := fun _ => none }).map
            SystemState.device_state = some sysOk.device_state
       ∧ (∀ p ∈ sysOk.process_state.processes,
           p.process_name = (oracleOk.sys_process_name p.process_info.pid).getD "Unknown"
           ∧ (oracleOk.sys_process_name p.process_info.pid = none →
               p.process_name = "Unknown"))) :=
  ⟨rfl, name_resolution_spec oracleOk (fun _ => none) sysOk rfl⟩

theorem fanReads_ok (o : Oracle) :
    ∀ (n i : Nat) (fs : List Nat), readFanSpeeds o i n = some fs →
      fanReads o i n = (List.range' i n).map ReadEvent.fan_speed := by
  intro n
  induction n with
  | zero => intro i fs _; rfl
  | succ n ih =>
      intro i fs h
      unfold readFanSpeeds at h
      cases hv : o.fan_speed i with
      | none => rw [hv] at h; exact absurd h (by simp)
      | some v =>
          rw [hv] at h
          cases hr : readFanSpeeds o (i + 1) n with
          | none => rw [hr] at h; exact absurd h (by simp)
          | some vs =>
              show ReadEvent.fan_speed i ::
                  (match o.fan_speed i with
                    | none => []
                    | some _ => fanReads o (i + 1) n) = _
              rw [hv, ih (i + 1) vs hr, List.range'_succ]
              rfl
/-- C9 (as amended): in a sample whose reads all succeed, `poll_device`
issues its queries in the order: device handle, CUDA runtime version,
graphics-process enumeration followed by one name lookup per graphics
pid, compute-process enumeration followed by one name lookup per compute
pid, fan count followed by one speed read per fan index, and only then
the remaining scalar attributes — name, driver version, temperature,
memory info; the power attribute is never read. -/
theorem poll_device_read_order (o : Oracle) {u : Unit} {cuda : Int}
    {gps cps : List ProcessInfo} {nf : Nat} {fs : List Nat} {nm dv : String}
    {temp : Nat}
    (h1 : o.device_by_index = some u)
    (h2 : o.sys_cuda_driver_version = some cuda)
    (h3 : o.running_graphics_processes = some gps)
    (h4 : o.running_compute_processes = some cps)
    (h5 : o.num_fans = some nf)
    (h6 : readFanSpeeds o 0 nf = some fs)
    (h7 : o.name = some nm)
    (h8 : o.sys_driver_version = some dv)
    (h9 : o.temperature = some temp) :
    pollDeviceReads o
      = [ReadEvent.device_by_index, ReadEvent.cuda_driver_version,
          ReadEvent.graphics_procs]
        ++ gps.map (fun p => ReadEvent.proc_name p.pid)
        ++ [ReadEvent.compute_procs]
        ++ cps.map (fun p => ReadEvent.proc_name p.pid)
        ++ [ReadEvent.num_fans]
        ++ (List.range nf).map ReadEvent.fan_speed
        ++ [ReadEvent.name, ReadEvent.driver_version, ReadEvent.temperature,
            ReadEvent.memory_info]
      ∧ ReadEvent.power_usage ∉ pollDeviceReads o := by
  have htrace : pollDeviceReads o
      = [ReadEvent.device_by_index, ReadEvent.cuda_driver_version,
          ReadEvent.graphics_procs]
        ++ gps.map (fun p => ReadEvent.proc_name p.pid)
        ++ [ReadEvent.compute_procs]
        ++ cps.map (fun p => ReadEvent.proc_name p.pid)
        ++ [ReadEvent.num_fans]
        ++ (List.range nf).map ReadEvent.fan_speed
        ++ [ReadEvent.name, ReadEvent.driver_version, ReadEvent.temperature,
            ReadEvent.memory_info] := by
    unfold pollDeviceReads
    simp only [h1, h2, h3, h4, h5, h6, h7, h8, h9, fanReads_ok o nf 0 fs h6]
    rw [List.range_eq_range']
    simp
  refine ⟨htrace, ?_⟩
  rw [htrace]
  simp
/-- Witness for `poll_device_read_order` at `oracleOk`. -/
theorem poll_device_read_order_witness :
    pollDeviceReads oracleOk
      = [ReadEvent.device_by_index, ReadEvent.cuda_driver_version,
          ReadEvent.graphics_procs]
        ++ [(⟨7, GpuMemory.Used 150⟩ : ProcessInfo)].map
            (fun p => ReadEvent.proc_name p.pid)
        ++ [ReadEvent.compute_procs]
        ++ [(⟨8, GpuMemory.Unavailable⟩ : ProcessInfo)].map
            (fun p => ReadEvent.proc_name p.pid)
        ++ [ReadEvent.num_fans]
        ++ (List.range 1).map ReadEvent.fan_speed
        ++ [ReadEvent.name, ReadEvent.driver_version, ReadEvent.temperature,
            ReadEvent.memory_info]
      ∧ ReadEvent.power_usage ∉ pollDeviceReads oracleOk :=
  poll_device_read_order oracleOk rfl rfl rfl rfl rfl rfl rfl rfl rfl
/-- C9, refutation of the claim as stated: the claimed order — all scalar
attributes first, then process enumeration and name resolution, then fan
reads — would make the trace's class sequence (scalar = 0, process = 1,
fan = 2) nondecreasing, but the actual trace of a fully successful sample
reads name, driver version, temperature and memory info after the fan
reads, so the class sequence decreases; moreover power — listed by the
claim among the scalars read — never appears in the trace. -/
theorem poll_device_read_order_counterexample :
    classesNondecreasing ((pollDeviceReads oracleOk).map readClass) = false
    ∧ ReadEvent.power_usage ∉ pollDeviceReads oracleOk := by
  exact ⟨by decide, by decide⟩

end Nvsmi
